import Mathlib

/-!
Verification development for the bidderd fixed-price RTB bidder.

Shallow embedding of the Go source (main.go and the agent file):
- Go runtime panics (failed type assertions, out-of-range slice indexing,
  rand.Intn on a non-positive bound) are modelled by the error side of
  an Except GoPanic result.
- JSON values obtained from json.Unmarshal into interface are modelled by
  the inductive JsonVal; a Go nil interface (absent map key, or JSON null)
  is modelled by Option JsonVal / JsonVal.null.
- float64 is modelled by Rat: the bidder performs no floating-point
  arithmetic, it only copies prices and truncates JSON numbers to int,
  and every float64 value is an exact rational.
- The global math/rand source is modelled by a stream rnd : Nat -> Nat
  together with a counter of how many draws have been made; rand.Intn n
  for n > 0 returns a value in [0, n), modelled as rnd picks % n.
- Only the fields of the openrtb types that the source reads or writes
  are modelled (BidRequest.ID, BidRequest.Imp, Imp.ID, Imp.Ext,
  BidResponse.ID, BidResponse.SeatBid, SeatBid.Bid and the Bid fields
  the source sets).
-/

set_option autoImplicit false

namespace Bidderd

/-- A JSON value as decoded by encoding/json into a Go interface value.
Numbers are Rat (exact model of float64; only copies and truncation occur). -/
inductive JsonVal where
  | null : JsonVal
  | boolean : Bool → JsonVal
  | num : Rat → JsonVal
  | str : String → JsonVal
  | arr : List JsonVal → JsonVal
  | obj : List (String × JsonVal) → JsonVal

/-- The Go runtime panics the bidder code can raise. -/
inductive GoPanic where
  /-- a failed single-form type assertion, including assertion on a nil interface -/
  | typeAssertion : GoPanic
  /-- slice index out of range -/
  | indexOutOfRange : GoPanic
  /-- rand.Intn called with a non-positive bound -/
  | intnNonPositive : GoPanic
deriving DecidableEq

/-- Creative from the agent configuration file. -/
structure Creative where
  format : String
  id : Int
  name : String
deriving DecidableEq

/-- AgentConfig: the agent configuration sent to the ACS.
Augmentations and BidControl are cached raw JSON that is never read;
they are modelled as opaque optional strings. -/
structure AgentConfig where
  account : List String
  augmentations : Option String
  bidControl : Option String
  bidProbability : Rat
  creatives : List Creative
  errorFormat : String
  external : Bool
  externalId : Int
  lossFormat : String
  minTimeAvailableMs : Rat
  winFormat : String
deriving DecidableEq

/-- An RTBKIT agent. The pacer channel is a concurrency handle with no
data content and is not modelled; registered and bidId are the modelled
private mutable state. -/
structure Agent where
  name : String
  config : AgentConfig
  price : Rat
  period : Int
  balance : Int
  registered : Bool
  bidId : Int
deriving DecidableEq

/-- Key of the per-request creative index: (impression id, agent external id). -/
structure creativesKey where
  impId : String
  extId : Int
deriving DecidableEq

/-- A composed OpenRTB bid (only the fields the source sets).
The marshalled extension object is modelled structurally, in the
alphabetical key order encoding/json produces for a Go map. -/
structure Bid where
  id : String
  impId : String
  creativeId : String
  price : Rat
  ext : List (String × JsonVal)

/-- An OpenRTB seat (only the bid list is touched by the source). -/
structure SeatBid where
  bid : List Bid

/-- An OpenRTB bid response (only the fields the source sets). -/
structure BidResponse where
  id : String
  seatBid : List SeatBid

/-- An OpenRTB impression: its id and its extension map
(map from string to interface, as unmarshalled by encoding/json). -/
structure Imp where
  id : String
  ext : List (String × JsonVal)

/-- An OpenRTB bid request: its id and its impression list. -/
structure BidRequest where
  id : String
  imp : List Imp

/-- The per-request creative index
map[creativesKey]interface, as an association list whose newest
binding shadows older ones (lookup finds the newest). -/
abbrev CreativeIndex := List (creativesKey × JsonVal)

/-- Lookup in a Go map[string]interface: absent keys give the nil interface,
modelled as none. -/
def extLookup : List (String × JsonVal) → String → Option JsonVal
  | [], _ => none
  | (k, v) :: rest, key => if k = key then some v else extLookup rest key

/-- Lookup in the creative index map. -/
def idxLookup : CreativeIndex → creativesKey → Option JsonVal
  | [], _ => none
  | (k, v) :: rest, key => if k = key then some v else idxLookup rest key

/-- Go map assignment ids[key] = v: the new binding shadows any older one. -/
def idxInsert (ids : CreativeIndex) (key : creativesKey) (v : JsonVal) : CreativeIndex :=
  (key, v) :: ids

/-- Go conversion int(f) for f a float64: truncation toward zero. -/
def goTrunc (q : Rat) : Int :=
  Int.tdiv q.num q.den

/-- Single-form type assertion x.([]interface) on a possibly-nil interface:
panics on nil (absent key or JSON null) and on any non-array value. -/
def goAssertArr : Option JsonVal → Except GoPanic (List JsonVal)
  | some (JsonVal.arr xs) => .ok xs
  | _ => .error .typeAssertion

/-- Single-form type assertion v.([]interface) on a value already known
to be a non-nil interface. -/
def goAssertArrV : JsonVal → Except GoPanic (List JsonVal)
  | JsonVal.arr xs => .ok xs
  | _ => .error .typeAssertion

/-- Single-form type assertion x.(float64): panics on nil and non-numbers. -/
def goAssertNum : JsonVal → Except GoPanic Rat
  | JsonVal.num q => .ok q
  | _ => .error .typeAssertion

/-- Single-form type assertion x.(map[string]interface) on a possibly-nil
interface: panics on nil and on any non-object value. -/
def goAssertObj : Option JsonVal → Except GoPanic (List (String × JsonVal))
  | some (JsonVal.obj kvs) => .ok kvs
  | _ => .error .typeAssertion

/-- Single-form type assertion x.(interface): panics exactly when x is
the nil interface (absent map key or JSON null). -/
def goAssertNonNil : Option JsonVal → Except GoPanic JsonVal
  | none => .error .typeAssertion
  | some JsonVal.null => .error .typeAssertion
  | some v => .ok v

/-- Go slice indexing xs[i] with an int index: panics when out of range. -/
def goSliceGet {α : Type} (xs : List α) (i : Int) : Except GoPanic α :=
  if h : 0 ≤ i ∧ i.toNat < xs.length then .ok (xs.get ⟨i.toNat, h.2⟩)
  else .error .indexOutOfRange

/-- rand.Intn n: panics for n = 0 (the bound is a slice length, never
negative); otherwise draws the next value of the stream, reduced mod n. -/
def randIntn (rnd : Nat → Nat) (picks : Nat) (n : Nat) : Except GoPanic Nat :=
  if n = 0 then .error .intnNonPositive else .ok (rnd picks % n)

/-- res.SeatBid[0].Bid = append(res.SeatBid[0].Bid, b): panics when the
response has no seat. -/
def appendBidSeat0 (res : BidResponse) (b : Bid) : Except GoPanic BidResponse :=
  match res.seatBid with
  | [] => .error .indexOutOfRange
  | s :: rest => .ok { res with seatBid := SeatBid.mk (s.bid ++ [b]) :: rest }

/-- len(res.SeatBid[0].Bid): reading the bid list of seat 0, panics when
the response has no seat. -/
def seat0Bids (res : BidResponse) : Except GoPanic (List Bid) :=
  match res.seatBid with
  | [] => .error .indexOutOfRange
  | s :: _ => .ok s.bid

/-- The bid extension map with priority 1.0 and the agent external id,
marshalled by encoding/json (Go map keys are emitted alphabetically). -/
def bidExtOf (agent : Agent) : List (String × JsonVal) :=
  [("external-id", JsonVal.num (agent.config.externalId : Rat)),
   ("priority", JsonVal.num 1)]

/-- The inner loop of externalIdsFromRequest: for one impression, walk the
asserted external-ids array, asserting each element to float64, asserting
creative-ids to an object, looking the truncated id up there, asserting the
result non-nil and storing it in the index. -/
def extIdsInner (imp : Imp) : List JsonVal → CreativeIndex → Except GoPanic CreativeIndex
  | [], ids => .ok ids
  | extID :: rest, ids =>
    match goAssertNum extID with
    | .error p => .error p
    | .ok q =>
      let key : creativesKey := { impId := imp.id, extId := goTrunc q }
      match goAssertObj (extLookup imp.ext "creative-ids") with
      | .error p => .error p
      | .ok cObj =>
        match goAssertNonNil (extLookup cObj (toString (goTrunc q))) with
        | .error p => .error p
        | .ok v => extIdsInner imp rest (idxInsert ids key v)

/-- The outer loop of externalIdsFromRequest over the impressions:
asserts each impression extension field external-ids to an array and
runs the inner loop. -/
def extIdsOuter : List Imp → CreativeIndex → Except GoPanic CreativeIndex
  | [], ids => .ok ids
  | imp :: rest, ids =>
    match goAssertArr (extLookup imp.ext "external-ids") with
    | .error p => .error p
    | .ok xs =>
      match extIdsInner imp xs ids with
      | .error p => .error p
      | .ok ids' => extIdsOuter rest ids'

/-- externalIdsFromRequest: builds the per-request creative index mapping
(impression id, external id) to the creative index list from the
impression extension data. Unchecked type assertions are modelled as
GoPanic errors that abort the whole computation, as a Go panic would. -/
def externalIdsFromRequest (req : BidRequest) : Except GoPanic CreativeIndex :=
  extIdsOuter req.imp []

/-- emptyResponseWithOneSeat: a response carrying the request id and a
single seat with an empty bid list. -/
def emptyResponseWithOneSeat (req : BidRequest) : BidResponse :=
  { id := req.id, seatBid := [SeatBid.mk []] }

/-- The bid composed by the DoBid loop body: identifier the string-encoded
counter value, the impression id, the resolved creative id string-encoded,
the agent fixed price, and the marshalled extension metadata. -/
def composedBid (a : Agent) (counter : Int) (imp : Imp) (cr : Creative) : Bid :=
  { id := toString counter, impId := imp.id, creativeId := toString cr.id,
    price := a.price, ext := bidExtOf a }

/-- Go nil-interface test ids[key] == nil: true when the key is absent or
the stored interface value is nil (for example a stored JSON null). -/
def goNilJson : Option JsonVal → Bool
  | none => true
  | some JsonVal.null => true
  | some _ => false

/-- One non-skipped iteration of the DoBid loop body for impression imp,
where v is the creative index entry read back from the map: assert it to
an array, draw a random position, assert the element to float64, truncate
to an index, resolve the creative in the agent configured creative list,
compose the bid, post-increment the agent bid counter, append to seat 0. -/
def doBidStep (rnd : Nat → Nat) (imp : Imp) (agent : Agent) (res : BidResponse)
    (picks : Nat) (v : Option JsonVal) : Except GoPanic (Agent × BidResponse × Nat) :=
  match goAssertArr v with
  | .error p => .error p
  | .ok creativeList =>
    match randIntn rnd picks creativeList.length with
    | .error p => .error p
    | .ok n =>
      match goAssertNum (creativeList.getD n JsonVal.null) with
      | .error p => .error p
      | .ok q =>
        match goSliceGet agent.config.creatives (goTrunc q) with
        | .error p => .error p
        | .ok creative =>
          match appendBidSeat0 res (composedBid agent agent.bidId imp creative) with
          | .error p => .error p
          | .ok res' => .ok ({ agent with bidId := agent.bidId + 1 }, res', picks + 1)

/-- The DoBid loop over the request impressions: impressions whose index
entry is the nil interface (ids[key] == nil: key absent, or a stored nil)
are skipped with continue; otherwise the entry is read again from the map
and the loop body runs on it. -/
def doBidLoop (ids : CreativeIndex) (rnd : Nat → Nat) :
    List Imp → Agent → BidResponse → Nat → Except GoPanic (Agent × BidResponse × Nat)
  | [], agent, res, picks => .ok (agent, res, picks)
  | imp :: rest, agent, res, picks =>
    if goNilJson (idxLookup ids { impId := imp.id, extId := agent.config.externalId })
    then doBidLoop ids rnd rest agent res picks
    else
      match doBidStep rnd imp agent res picks
          (idxLookup ids { impId := imp.id, extId := agent.config.externalId }) with
      | .error p => .error p
      | .ok (agent', res', picks') => doBidLoop ids rnd rest agent' res' picks'

/-- Agent.DoBid: runs the loop over all impressions and returns the
response together with len(res.SeatBid[0].Bid) > 0, the updated receiver
state (bid counter) and the updated random draw counter. -/
def Agent.DoBid (agent : Agent) (req : BidRequest) (res : BidResponse)
    (ids : CreativeIndex) (rnd : Nat → Nat) (picks : Nat) :
    Except GoPanic (BidResponse × Bool × Agent × Nat) :=
  match doBidLoop ids rnd req.imp agent res picks with
  | .error p => .error p
  | .ok (agent', res', picks') =>
    match seat0Bids res' with
    | .error p => .error p
    | .ok bids => .ok (res', decide (bids.length > 0), agent', picks')

/-- The caller-visible outcome of the auction endpoint. -/
inductive AuctionOutcome where
  /-- status 204 with no body -/
  | noBid : AuctionOutcome
  /-- status 200, JSON content type, protocol version header, serialized response -/
  | bid (res : BidResponse) : AuctionOutcome
  /-- a runtime panic escaped the handler -/
  | fault (p : GoPanic) : AuctionOutcome

/-- The agent loop of fastHandleAuctions: each iteration works on a copy
of the slice element (the updated agent copy is discarded, as in the Go
range loop) and folds the returned flag with ok = tmpOk or ok. -/
def runAgents (req : BidRequest) (ids : CreativeIndex) (rnd : Nat → Nat) :
    List Agent → BidResponse → Bool → Nat → Except GoPanic (BidResponse × Bool)
  | [], res, ok, _ => .ok (res, ok)
  | a :: rest, res, ok, picks =>
    match a.DoBid req res ids rnd picks with
    | .error p => .error p
    | .ok (res', tmpOk, _, picks') => runAgents req ids rnd rest res' (tmpOk || ok) picks'

/-- fastHandleAuctions: the auction endpoint handler. The JSON parse of
the posted body is abstracted to its outcome: none models json.Unmarshal
returning an error, some req a successfully parsed request. The overall
flag ok is initialized to true, exactly as in the source
(var ok bool = true). -/
def fastHandleAuctions (parsed : Option BidRequest) (agents : List Agent)
    (rnd : Nat → Nat) : AuctionOutcome :=
  match parsed with
  | none => .noBid
  | some req =>
    match externalIdsFromRequest req with
    | .error p => .fault p
    | .ok ids =>
      match runAgents req ids rnd agents (emptyResponseWithOneSeat req) true 0 with
      | .error p => .fault p
      | .ok (res, ok) => if ok then .bid res else .noBid

/-- Agent.RegisterAgent: the outbound HTTP POST to the ACS is abstracted
to its outcome netOk; on error the method logs and returns with the
receiver unchanged, on success it sets registered. -/
def Agent.RegisterAgent (agent : Agent) (netOk : Bool) : Agent :=
  if netOk then { agent with registered := true } else agent

/-- Helper for stating registration independence: the agent with its
registered flag replaced. -/
def setRegistered (a : Agent) (b : Bool) : Agent :=
  { a with registered := b }

/-- Whether the seat 0 bid list of a response is non-empty, total version
(false when the response has no seat). -/
def seatHasBids (res : BidResponse) : Bool :=
  match res.seatBid with
  | [] => false
  | s :: _ => decide (s.bid.length > 0)

/-- Whether an outcome is the no-bid outcome (status 204, empty body). -/
def isNoBid : AuctionOutcome → Bool
  | AuctionOutcome.noBid => true
  | _ => false

/-- A bid with its creative selection erased; two responses with the same
decisionView agree on everything except which creative was selected. -/
def eraseCreative (b : Bid) : Bid :=
  { b with creativeId := "" }

/-- The decision content of a response: all seats and bids with the
creative selection erased. Equality of decision views means the same
(agent external id, impression id) pairs placed bids, with the same bid
identifiers, prices and extension data. -/
def decisionView (res : BidResponse) : List (List Bid) :=
  res.seatBid.map (fun s => s.bid.map eraseCreative)


/-! Concrete fixtures used by counterexamples and witnesses. -/

/-- The sample agent configuration of the spec scenario: external id 42,
one creative with numeric id 5. -/
def sampleConfig : AgentConfig :=
  { account := ["hello", "world"], augmentations := none, bidControl := none,
    bidProbability := 1,
    creatives := [{ format := "728x90", id := 5, name := "fixture" }],
    errorFormat := "lightweight", external := true, externalId := 42,
    lossFormat := "lightweight", minTimeAvailableMs := 5, winFormat := "full" }

/-- The sample agent: fixed price 1, bid counter 0, not registered. -/
def sampleAgent : Agent :=
  { name := "test_agent", config := sampleConfig, price := 1, period := 100,
    balance := 500, registered := false, bidId := 0 }

/-- An impression carrying the scenario extension data: eligible external
id 42 mapped to the creative index list containing index 0. -/
def sampleImp : Imp :=
  { id := "1",
    ext := [("external-ids", JsonVal.arr [JsonVal.num 42]),
            ("creative-ids", JsonVal.obj [("42", JsonVal.arr [JsonVal.num 0])])] }

/-- The scenario request: id r1, one impression. -/
def sampleReq : BidRequest := { id := "r1", imp := [sampleImp] }

/-- The creative index the scenario request generates. -/
def sampleIds : CreativeIndex :=
  [({ impId := "1", extId := 42 }, JsonVal.arr [JsonVal.num 0])]

/-- A bid standing in the seat before the sample agent runs (as placed by
an agent that ran earlier on the same shared response). -/
def earlierBid : Bid :=
  { id := "7", impId := "1", creativeId := "9", price := 2, ext := [] }

/-- A response whose single seat already holds earlierBid. -/
def preLoadedRes : BidResponse :=
  { id := "r1", seatBid := [SeatBid.mk [earlierBid]] }

/-- A one-impression request whose impression has no extension data. -/
def bareReq : BidRequest := { id := "r1", imp := [{ id := "i1", ext := [] }] }

/-- Expected new-bid block of the C7 witness run. -/
def witnessBid : Bid :=
  composedBid sampleAgent 0 sampleImp { format := "728x90", id := 5, name := "fixture" }

/-- Expected response of the C7 witness run. -/
def witnessRes : BidResponse :=
  { id := "r1", seatBid := [SeatBid.mk [witnessBid]] }

/-- An impression with no extension data at all (missing external-ids). -/
def malformedImp : Imp := { id := "m1", ext := [] }

/-- Creative index whose only candidate entry is index 3, out of range for
the sample agent's single-creative list. -/
def outOfRangeIds : CreativeIndex :=
  [({ impId := "1", extId := 42 }, JsonVal.arr [JsonVal.num 3])]

/-- Creative index whose only entry is a present but empty candidate list. -/
def emptyListIds : CreativeIndex := [({ impId := "1", extId := 42 }, JsonVal.arr [])]

/-- An agent with two creatives, for exercising creative rotation. -/
def rotAgent : Agent :=
  { sampleAgent with config :=
      { sampleConfig with creatives :=
          [{ format := "728x90", id := 5, name := "fixture" },
           { format := "300x250", id := 9, name := "other" }] } }

/-- An impression whose candidate creative index list is [0, 1]. -/
def rotImp : Imp :=
  { id := "1",
    ext := [("external-ids", JsonVal.arr [JsonVal.num 42]),
            ("creative-ids", JsonVal.obj [("42", JsonVal.arr [JsonVal.num 0, JsonVal.num 1])])] }

/-- The rotation request. -/
def rotReq : BidRequest := { id := "r1", imp := [rotImp] }

/-- Response of the first rotation run (stream constantly 0: creative 5). -/
def rotRes1 : BidResponse :=
  { id := "r1", seatBid := [SeatBid.mk
      [composedBid rotAgent 0 rotImp { format := "728x90", id := 5, name := "fixture" }]] }

/-- Response of the second rotation run (stream constantly 1: creative 9). -/
def rotRes2 : BidResponse :=
  { id := "r1", seatBid := [SeatBid.mk
      [composedBid rotAgent 0 rotImp { format := "300x250", id := 9, name := "other" }]] }

end Bidderd

namespace Bidderd

/-! Helper lemmas about the embedded operations. -/

theorem goSliceGet_mem {α : Type} (xs : List α) (i : Int) (a : α)
    (h : goSliceGet xs i = .ok a) : a ∈ xs := by
  unfold goSliceGet at h
  split at h
  · cases h
    exact List.get_mem _ _ _
  · cases h

/-- A successful DoBid loop body iteration appends exactly one composed bid
to seat 0, advances the bid counter by one and the draw counter by one,
and the creative comes from the agent configured creative list. -/
theorem doBidStep_ok_shape (rnd : Nat → Nat) (imp : Imp) (agent : Agent) (res : BidResponse)
    (picks : Nat) (v : Option JsonVal) (out : Agent × BidResponse × Nat)
    (h : doBidStep rnd imp agent res picks v = .ok out) :
    ∃ cr s rest, cr ∈ agent.config.creatives ∧ res.seatBid = s :: rest ∧
      out = ({ agent with bidId := agent.bidId + 1 },
             { res with seatBid :=
                 SeatBid.mk (s.bid ++ [composedBid agent agent.bidId imp cr]) :: rest },
             picks + 1) := by
  unfold doBidStep at h
  split at h
  · cases h
  split at h
  · cases h
  split at h
  · cases h
  split at h
  · cases h
  rename_i creative h4
  split at h
  · cases h
  rename_i res' h5
  cases h
  unfold appendBidSeat0 at h5
  split at h5
  · cases h5
  rename_i s rest hseat
  cases h5
  exact ⟨creative, s, rest, goSliceGet_mem _ _ _ h4, hseat, rfl⟩

end Bidderd
namespace Bidderd

/-- Structural effect of a successful DoBid loop run: seat 0 receives an
appended block of new bids in impression order, all other response parts
are unchanged, the bid counter advances by the number of new bids, and
the j-th new bid is composed from the counter value at its own placement,
an impression of the list, and a creative of the agent creative list. -/
theorem doBidLoop_ok_spec (ids : CreativeIndex) (rnd : Nat → Nat) :
    ∀ (imps : List Imp) (a : Agent) (res : BidResponse) (picks : Nat)
      (s : SeatBid) (rest : List SeatBid) (a' : Agent) (res' : BidResponse) (picks' : Nat),
      res.seatBid = s :: rest →
      doBidLoop ids rnd imps a res picks = .ok (a', res', picks') →
      ∃ newBids : List Bid,
        res' = { res with seatBid := SeatBid.mk (s.bid ++ newBids) :: rest } ∧
        a' = { a with bidId := a.bidId + newBids.length } ∧
        ∀ j (hj : j < newBids.length),
          ∃ imp, imp ∈ imps ∧ ∃ cr, cr ∈ a.config.creatives ∧
            newBids.get ⟨j, hj⟩ = composedBid a (a.bidId + j) imp cr := by
  intro imps
  induction imps with
  | nil =>
    intro a res picks s rest a' res' picks' hres h
    simp only [doBidLoop] at h
    cases h
    refine ⟨[], ?_, ?_, ?_⟩
    · cases res
      cases s
      simp_all
    · cases a
      simp
    · intro j hj
      simp at hj
  | cons imp imps ih =>
    intro a res picks s rest a' res' picks' hres h
    simp only [doBidLoop] at h
    split at h
    · -- skipped impression: ids[key] == nil
      obtain ⟨newBids, h1, h2, h3⟩ := ih a res picks s rest a' res' picks' hres h
      refine ⟨newBids, h1, h2, ?_⟩
      intro j hj
      obtain ⟨imp', himp', cr, hcr, heq⟩ := h3 j hj
      exact ⟨imp', List.mem_cons_of_mem _ himp', cr, hcr, heq⟩
    · -- non-nil entry: one loop body iteration, then the rest
      split at h
      · cases h
      rename_i a1 res1 picks1 hstep
      obtain ⟨cr, s0, rest0, hcr, hseat0, hout⟩ :=
        doBidStep_ok_shape _ _ _ _ _ _ _ hstep
      rw [hres] at hseat0
      injection hseat0 with hs hrest
      subst hs
      subst hrest
      simp only [Prod.mk.injEq] at hout
      obtain ⟨ha1, hres1, hpicks1⟩ := hout
      subst ha1
      subst hres1
      subst hpicks1
      obtain ⟨newBids, h1, h2, h3⟩ :=
        ih _ _ _ (SeatBid.mk (s.bid ++ [composedBid a a.bidId imp cr])) rest
          a' res' picks' rfl h
      refine ⟨composedBid a a.bidId imp cr :: newBids, ?_, ?_, ?_⟩
      · rw [h1]
        simp
      · rw [h2]
        cases a
        simp
        omega
      · intro j hj
        match j with
        | 0 =>
          refine ⟨imp, List.mem_cons_self _ _, cr, hcr, ?_⟩
          simp [composedBid]
        | Nat.succ j =>
          have hj' : j < newBids.length := by
            simp at hj
            omega
          obtain ⟨imp', himp', cr', hcr', heq⟩ := h3 j hj'
          refine ⟨imp', List.mem_cons_of_mem _ himp', cr', hcr', ?_⟩
          have hget : (composedBid a a.bidId imp cr :: newBids).get ⟨j + 1, hj⟩
              = newBids.get ⟨j, hj'⟩ := rfl
          rw [hget, heq]
          have hcount : ({ a with bidId := a.bidId + 1 } : Agent).bidId + (j : Int)
              = a.bidId + ((j : Nat) + 1 : Nat) := by
            simp
            omega
          simp only [composedBid]
          rw [hcount]
          rfl

end Bidderd

namespace Bidderd

/-- Decomposition of a successful Agent.DoBid call into its loop run and
the final seat 0 length test. -/
theorem DoBid_ok_decomp (a : Agent) (req : BidRequest) (res : BidResponse)
    (ids : CreativeIndex) (rnd : Nat → Nat) (picks : Nat)
    (out : BidResponse × Bool × Agent × Nat)
    (h : a.DoBid req res ids rnd picks = .ok out) :
    ∃ a1 res1 picks1 bids,
      doBidLoop ids rnd req.imp a res picks = .ok (a1, res1, picks1) ∧
      seat0Bids res1 = .ok bids ∧
      out = (res1, decide (bids.length > 0), a1, picks1) := by
  unfold Agent.DoBid at h
  split at h
  · cases h
  rename_i a1 res1 picks1 hloop
  split at h
  · cases h
  rename_i bids hbids
  cases h
  exact ⟨a1, res1, picks1, bids, hloop, hbids, rfl⟩

/-- The overall flag of the agent loop stays true when it starts true,
because each iteration folds with ok = tmpOk or ok. -/
theorem runAgents_ok_true (req : BidRequest) (ids : CreativeIndex) (rnd : Nat → Nat) :
    ∀ (agents : List Agent) (res : BidResponse) (picks : Nat)
      (res' : BidResponse) (b : Bool),
      runAgents req ids rnd agents res true picks = .ok (res', b) → b = true := by
  intro agents
  induction agents with
  | nil =>
    intro res picks res' b h
    simp only [runAgents] at h
    cases h
    rfl
  | cons a rest ih =>
    intro res picks res' b h
    simp only [runAgents] at h
    split at h
    · cases h
    rename_i res1 tmpOk a1 picks1 hdo
    rw [Bool.or_true] at h
    exact ih res1 picks1 res' b h

end Bidderd
namespace Bidderd

/-- Preservation of the single-seat structure and the response id across
the agent loop: every DoBid call only appends to seat 0. -/
theorem runAgents_seat_preserved (req : BidRequest) (ids : CreativeIndex) (rnd : Nat → Nat) :
    ∀ (agents : List Agent) (res : BidResponse) (ok : Bool) (picks : Nat)
      (res' : BidResponse) (ok' : Bool) (s : SeatBid) (rest : List SeatBid),
      res.seatBid = s :: rest →
      runAgents req ids rnd agents res ok picks = .ok (res', ok') →
      ∃ s2, res' = { res with seatBid := s2 :: rest } := by
  intro agents
  induction agents with
  | nil =>
    intro res ok picks res' ok' s rest hres h
    simp only [runAgents] at h
    cases h
    refine ⟨s, ?_⟩
    cases res
    simp_all
  | cons a rest2 ih =>
    intro res ok picks res' ok' s rest hres h
    simp only [runAgents] at h
    split at h
    · cases h
    rename_i res1 tmpOk a1 picks1 hdo
    obtain ⟨a2, res2, picks2, bids, hloop, hbids, hout⟩ :=
      DoBid_ok_decomp _ _ _ _ _ _ _ hdo
    simp only [Prod.mk.injEq] at hout
    obtain ⟨hres1, htmp, ha1, hpicks1⟩ := hout
    obtain ⟨newBids, hr2, _, _⟩ :=
      doBidLoop_ok_spec ids rnd req.imp a res picks s rest a2 res2 picks2 hres hloop
    rw [hres1, hr2] at h
    obtain ⟨s2, hfin⟩ := ih _ _ _ _ _ (SeatBid.mk (s.bid ++ newBids)) rest rfl h
    exact ⟨s2, hfin⟩

/-- C1: the specification requires that a successfully parsed auction
request in which no configured agent places a bid is answered with the
no-bid outcome (status 204, no body).  The handler initializes the
overall flag with var ok bool = true and folds ok = tmpOk or ok, so the
flag can never become false: a parsed request is always answered with the
serialized-response outcome (or a fault), never with no-bid, even when
the seat is empty.  This theorem documents the divergence. -/
theorem parsed_request_never_no_bid (req : BidRequest) (agents : List Agent)
    (rnd : Nat → Nat) :
    isNoBid (fastHandleAuctions (some req) agents rnd) = false := by
  simp only [fastHandleAuctions]
  split
  · rfl
  split
  · rfl
  rename_i res b hrun
  rw [runAgents_ok_true req _ rnd agents _ 0 res b hrun]
  rfl

/-- C5: an unparsable request body (json.Unmarshal returns an error,
modelled by the none argument) short-circuits to the no-bid outcome: no
agent is invoked (the result does not depend on the agent list at all),
no agent state is read or written, and the dispatcher does not fault. -/
theorem parse_failure_no_bid (agents : List Agent) (rnd : Nat → Nat) :
    fastHandleAuctions none agents rnd = AuctionOutcome.noBid := rfl

end Bidderd
namespace Bidderd

/-- C2 counterexample: with an empty creative index, the sample agent
places no bid: the response comes back unchanged, its bid counter does
not move, and no random draw is made.  Yet DoBid returns true, because
the returned flag is computed from the shared seat, which already holds a
bid placed by an earlier agent.  This refutes the only-if direction of
the claim that the flag is true iff this agent itself placed a bid. -/
theorem DoBid_flag_true_without_own_bid :
    sampleAgent.DoBid bareReq preLoadedRes [] (fun _ => 0) 0 =
      .ok (preLoadedRes, true, sampleAgent, 0) := rfl

/-- C2 amended: DoBid's boolean result is true iff seat 0 of the shared
response is non-empty after this agent's pass, i.e. iff this agent or an
agent that ran earlier on the same response placed at least one bid (the
source returns len(res.SeatBid[0].Bid) > 0). -/
theorem DoBid_flag_iff_seat0_nonempty (a : Agent) (req : BidRequest)
    (res : BidResponse) (ids : CreativeIndex) (rnd : Nat → Nat) (picks : Nat)
    (res' : BidResponse) (ok : Bool) (a' : Agent) (picks' : Nat)
    (h : a.DoBid req res ids rnd picks = .ok (res', ok, a', picks')) :
    ok = seatHasBids res' := by
  obtain ⟨a1, res1, picks1, bids, hloop, hbids, hout⟩ :=
    DoBid_ok_decomp _ _ _ _ _ _ _ h
  simp only [Prod.mk.injEq] at hout
  obtain ⟨hres', hok, ha', hpicks'⟩ := hout
  subst hres'
  subst hok
  unfold seat0Bids at hbids
  unfold seatHasBids
  split at hbids
  · cases hbids
  rename_i s t hseat
  cases hbids
  rfl

/-- C2 amended witness at a concrete input: the flag returned for the
pre-loaded response equals the seat-non-emptiness of the result. -/
theorem DoBid_flag_iff_seat0_nonempty_witness :
    (true : Bool) = seatHasBids preLoadedRes :=
  DoBid_flag_iff_seat0_nonempty sampleAgent bareReq preLoadedRes [] (fun _ => 0) 0
    preLoadedRes true sampleAgent 0 rfl

end Bidderd
namespace Bidderd

/-- C7: every bid composed by a successful DoBid run is appended to seat 0
and has exactly the composed shape: its identifier is the string encoding
of the agent bid counter at its own placement (the counter before that
bid's post-increment: the j-th new bid carries the initial counter plus j,
and the final counter is the initial counter plus the number of new bids),
its impression id is the id of an impression of the request, its creative
id is the string-encoded id of a creative resolved from the agent
configured creative list, its price is the agent configured fixed price,
and its extension metadata is the static priority 1 together with the
agent external id (see composedBid and bidExtOf). -/
theorem DoBid_composed_bid_fields (a : Agent) (req : BidRequest) (res : BidResponse)
    (ids : CreativeIndex) (rnd : Nat → Nat) (picks : Nat)
    (res' : BidResponse) (ok : Bool) (a' : Agent) (picks' : Nat)
    (s : SeatBid) (rest : List SeatBid)
    (hres : res.seatBid = s :: rest)
    (h : a.DoBid req res ids rnd picks = .ok (res', ok, a', picks')) :
    ∃ newBids : List Bid,
      res' = { res with seatBid := SeatBid.mk (s.bid ++ newBids) :: rest } ∧
      a' = { a with bidId := a.bidId + newBids.length } ∧
      ∀ j (hj : j < newBids.length),
        ∃ imp, imp ∈ req.imp ∧ ∃ cr, cr ∈ a.config.creatives ∧
          newBids.get ⟨j, hj⟩ = composedBid a (a.bidId + j) imp cr := by
  obtain ⟨a1, res1, picks1, bids, hloop, hbids, hout⟩ :=
    DoBid_ok_decomp _ _ _ _ _ _ _ h
  simp only [Prod.mk.injEq] at hout
  obtain ⟨hres', hok, ha', hpicks'⟩ := hout
  subst hres'
  subst ha'
  exact doBidLoop_ok_spec ids rnd req.imp a res picks s rest a' res' picks1 hres hloop

/-- C7 witness: the composed-bid shape evaluated on the concrete scenario
run (one impression, creative index entry [0], draw 0). -/
theorem DoBid_composed_bid_fields_witness :
    ∃ newBids : List Bid,
      witnessRes = { emptyResponseWithOneSeat sampleReq with
        seatBid := SeatBid.mk ((SeatBid.mk ([] : List Bid)).bid ++ newBids) :: [] } ∧
      ({ sampleAgent with bidId := 1 } : Agent)
        = { sampleAgent with bidId := sampleAgent.bidId + newBids.length } ∧
      ∀ j (hj : j < newBids.length),
        ∃ imp, imp ∈ sampleReq.imp ∧ ∃ cr, cr ∈ sampleAgent.config.creatives ∧
          newBids.get ⟨j, hj⟩ = composedBid sampleAgent (sampleAgent.bidId + j) imp cr :=
  DoBid_composed_bid_fields sampleAgent sampleReq (emptyResponseWithOneSeat sampleReq)
    sampleIds (fun _ => 0) 0 witnessRes true { sampleAgent with bidId := 1 } 1
    (SeatBid.mk []) [] rfl rfl

end Bidderd
namespace Bidderd

/-- C8: every response the dispatch pipeline returns through the bid
outcome contains exactly one seat (the seat list of emptyResponseWithOneSeat
is a singleton and every DoBid call only rewrites seat 0 in place), and
the response identifier equals the request identifier. -/
theorem response_one_seat_and_request_id (req : BidRequest) (agents : List Agent)
    (rnd : Nat → Nat) (res : BidResponse)
    (h : fastHandleAuctions (some req) agents rnd = .bid res) :
    res.seatBid.length = 1 ∧ res.id = req.id := by
  simp only [fastHandleAuctions] at h
  split at h
  · cases h
  rename_i ids hids
  split at h
  · cases h
  rename_i res0 ok0 hrun
  cases ok0 with
  | false => simp at h
  | true =>
    simp only [if_true] at h
    cases h
    obtain ⟨s2, hfin⟩ := runAgents_seat_preserved req ids rnd agents
      (emptyResponseWithOneSeat req) true 0 res true (SeatBid.mk []) [] rfl hrun
    subst hfin
    exact ⟨rfl, rfl⟩

/-- C8 witness: concrete run of the pipeline (parsed request, no agents)
returning the bid outcome; its response has one seat and the request id. -/
theorem response_one_seat_and_request_id_witness :
    (emptyResponseWithOneSeat sampleReq).seatBid.length = 1 ∧
      (emptyResponseWithOneSeat sampleReq).id = sampleReq.id :=
  response_one_seat_and_request_id sampleReq [] (fun _ => 0)
    (emptyResponseWithOneSeat sampleReq) rfl

end Bidderd
namespace Bidderd

/-- C3: the claim states that missing or malformed creative-eligibility
extension data only skips the affected impression while the rest of the
request continues to be indexed, without faulting.  In the source the
read imp.Ext["external-ids"].([]interface) is an unchecked type
assertion: on a missing field it panics and aborts the whole request, so
the well-formed second impression is never indexed.  The index build
returns the type-assertion panic instead of an index containing the
second impression's entry. -/
theorem externalIds_panics_on_malformed_imp :
    externalIdsFromRequest { id := "r1", imp := [malformedImp, sampleImp] } =
      .error GoPanic.typeAssertion := rfl

/-- C4: the claim states an out-of-range randomly selected creative index
is recovered by skipping that single bid without crashing the dispatch
path.  In the source agent.Config.Creatives[cridx] is an unguarded slice
index: with the only candidate index 3 and one configured creative,
DoBid returns the index-out-of-range panic and the dispatch errors
instead of skipping the bid. -/
theorem DoBid_panics_on_out_of_range_creative :
    sampleAgent.DoBid sampleReq (emptyResponseWithOneSeat sampleReq)
      outOfRangeIds (fun _ => 0) 0 = .error GoPanic.indexOutOfRange := rfl

end Bidderd
namespace Bidderd

/-- The DoBid loop body never reads the registered flag: running it on the
agent with a replaced flag gives the same result with the flag carried
through unchanged. -/
theorem doBidStep_registered (rnd : Nat → Nat) (imp : Imp) (a : Agent)
    (res : BidResponse) (picks : Nat) (v : Option JsonVal) (b : Bool) :
    doBidStep rnd imp (setRegistered a b) res picks v =
      Except.map (fun x => (setRegistered x.1 b, x.2.1, x.2.2))
        (doBidStep rnd imp a res picks v) := by
  unfold doBidStep setRegistered
  cases goAssertArr v with
  | error p => rfl
  | ok creativeList =>
    simp only []
    cases randIntn rnd picks creativeList.length with
    | error p => rfl
    | ok n =>
      simp only []
      cases goAssertNum (creativeList.getD n JsonVal.null) with
      | error p => rfl
      | ok q =>
        simp only []
        cases goSliceGet a.config.creatives (goTrunc q) with
        | error p => rfl
        | ok creative =>
          simp only []
          have hcb : composedBid { a with registered := b } a.bidId imp creative
              = composedBid a a.bidId imp creative := rfl
          rw [hcb]
          cases appendBidSeat0 res (composedBid a a.bidId imp creative) with
          | error p => rfl
          | ok res2 => rfl

end Bidderd
namespace Bidderd

/-- The DoBid loop never reads the registered flag: the flag value is
carried through unchanged and everything else is identical. -/
theorem doBidLoop_registered (ids : CreativeIndex) (rnd : Nat → Nat) :
    ∀ (imps : List Imp) (a : Agent) (res : BidResponse) (picks : Nat) (b : Bool),
    doBidLoop ids rnd imps (setRegistered a b) res picks =
      Except.map (fun x => (setRegistered x.1 b, x.2))
        (doBidLoop ids rnd imps a res picks) := by
  intro imps
  induction imps with
  | nil =>
    intro a res picks b
    rfl
  | cons imp rest ih =>
    intro a res picks b
    simp only [doBidLoop]
    have hkey : ({ impId := imp.id, extId := (setRegistered a b).config.externalId } : creativesKey)
        = { impId := imp.id, extId := a.config.externalId } := rfl
    rw [hkey]
    split
    · exact ih a res picks b
    · rw [doBidStep_registered]
      cases doBidStep rnd imp a res picks
          (idxLookup ids { impId := imp.id, extId := a.config.externalId }) with
      | error p => rfl
      | ok out =>
        obtain ⟨a1, res1, picks1⟩ := out
        simp only [Except.map]
        exact ih a1 res1 picks1 b

/-- Agent.DoBid is independent of the registered flag: the flag is dead
state for bidding, only carried through into the returned receiver. -/
theorem DoBid_registered (a : Agent) (b : Bool) (req : BidRequest) (res : BidResponse)
    (ids : CreativeIndex) (rnd : Nat → Nat) (picks : Nat) :
    (setRegistered a b).DoBid req res ids rnd picks =
      Except.map (fun x => (x.1, x.2.1, setRegistered x.2.2.1 b, x.2.2.2))
        (a.DoBid req res ids rnd picks) := by
  unfold Agent.DoBid
  rw [doBidLoop_registered]
  cases doBidLoop ids rnd req.imp a res picks with
  | error p => rfl
  | ok out =>
    obtain ⟨a1, res1, picks1⟩ := out
    simp only [Except.map]
    cases seat0Bids res1 with
    | error p => rfl
    | ok bids => rfl

/-- C9: when the outbound registration call fails, RegisterAgent returns
the receiver completely unchanged (the registered flag stays false when it
was false, and no other agent state changes); and DoBid never reads the
registered flag: replacing the flag changes nothing in the bidding result
except that the replaced flag value is carried through in the returned
receiver state, so auction serving for the agent proceeds identically
whatever its registration state. -/
theorem register_failure_and_bidding_independent :
    (∀ a : Agent, a.RegisterAgent false = a) ∧
    (∀ (a : Agent) (b : Bool) (req : BidRequest) (res : BidResponse)
       (ids : CreativeIndex) (rnd : Nat → Nat) (picks : Nat),
      (setRegistered a b).DoBid req res ids rnd picks =
        Except.map (fun x => (x.1, x.2.1, setRegistered x.2.2.1 b, x.2.2.2))
          (a.DoBid req res ids rnd picks)) :=
  ⟨fun _ => rfl, DoBid_registered⟩

end Bidderd
namespace Bidderd

/-- If some impression of the list meets a present-but-empty candidate
list, the DoBid loop errors (with the zero-bound rand.Intn panic when it
reaches that impression, or an earlier panic of the same run). -/
theorem doBidLoop_empty_candidates_error (ids : CreativeIndex) (rnd : Nat → Nat) :
    ∀ (imps : List Imp) (a : Agent) (res : BidResponse) (picks : Nat),
    (∃ imp, imp ∈ imps ∧
      idxLookup ids { impId := imp.id, extId := a.config.externalId }
        = some (JsonVal.arr [])) →
    ∃ p, doBidLoop ids rnd imps a res picks = .error p := by
  intro imps
  induction imps with
  | nil =>
    rintro a res picks ⟨imp, himp, -⟩
    exact absurd himp (List.not_mem_nil _)
  | cons imp rest ih =>
    rintro a res picks ⟨imp0, himp0, hlook⟩
    simp only [doBidLoop]
    rcases List.mem_cons.mp himp0 with heq | hmem
    · subst heq
      refine ⟨GoPanic.intnNonPositive, ?_⟩
      rw [hlook]
      simp [goNilJson, doBidStep, goAssertArr, randIntn]
    · by_cases hc : goNilJson (idxLookup ids
          { impId := imp.id, extId := a.config.externalId }) = true
      · obtain ⟨p, hp⟩ := ih a res picks ⟨imp0, hmem, hlook⟩
        exact ⟨p, by rw [if_pos hc]; exact hp⟩
      · cases hstep : doBidStep rnd imp a res picks
            (idxLookup ids { impId := imp.id, extId := a.config.externalId }) with
        | error p =>
          refine ⟨p, ?_⟩
          rw [if_neg hc]
        | ok out =>
          obtain ⟨cr, s0, rest0, hcr, hseat0, hout⟩ :=
            doBidStep_ok_shape _ _ _ _ _ _ _ hstep
          subst hout
          obtain ⟨p, hp⟩ := ih { a with bidId := a.bidId + 1 }
            { res with seatBid :=
                SeatBid.mk (s0.bid ++ [composedBid a a.bidId imp cr]) :: rest0 }
            (picks + 1) ⟨imp0, hmem, hlook⟩
          refine ⟨p, ?_⟩
          rw [if_neg hc]
          exact hp

/-- C10: DoBid is not total on present-but-empty candidate lists: whenever
some impression of the request has a creative index entry that is present
and is the empty list, DoBid faults (the zero-bound random selection, or
an earlier panic of the same run) instead of skipping that impression, so
DoBid can only return normally when every present candidate list met by
an impression is non-empty. -/
theorem DoBid_faults_on_empty_candidate_list (a : Agent) (req : BidRequest)
    (res : BidResponse) (ids : CreativeIndex) (rnd : Nat → Nat) (picks : Nat)
    (h : ∃ imp, imp ∈ req.imp ∧
      idxLookup ids { impId := imp.id, extId := a.config.externalId }
        = some (JsonVal.arr [])) :
    ∃ p, a.DoBid req res ids rnd picks = .error p := by
  obtain ⟨p, hp⟩ := doBidLoop_empty_candidates_error ids rnd req.imp a res picks h
  refine ⟨p, ?_⟩
  unfold Agent.DoBid
  simp [hp]

/-- C10 witness: the sample request whose single impression meets the
present empty candidate list makes DoBid fault. -/
theorem DoBid_faults_on_empty_candidate_list_witness :
    ∃ p, sampleAgent.DoBid sampleReq (emptyResponseWithOneSeat sampleReq)
      emptyListIds (fun _ => 0) 0 = .error p :=
  DoBid_faults_on_empty_candidate_list sampleAgent sampleReq
    (emptyResponseWithOneSeat sampleReq) emptyListIds (fun _ => 0) 0
    ⟨sampleImp, List.mem_cons_self _ _, rfl⟩

end Bidderd
namespace Bidderd

/-- Two successful runs of the loop body on the same impression, agent and
index entry produce the same next agent state and draw counter, and
responses with equal decision views: the two appended bids can differ only
in the selected creative. -/
theorem doBidStep_decision (rnd1 rnd2 : Nat → Nat) (imp : Imp) (a : Agent)
    (res1 res2 : BidResponse) (picks : Nat) (v : Option JsonVal)
    (out1 out2 : Agent × BidResponse × Nat)
    (hview : decisionView res1 = decisionView res2)
    (h1 : doBidStep rnd1 imp a res1 picks v = .ok out1)
    (h2 : doBidStep rnd2 imp a res2 picks v = .ok out2) :
    out1.1 = out2.1 ∧ out1.2.2 = out2.2.2 ∧
      decisionView out1.2.1 = decisionView out2.2.1 := by
  obtain ⟨cr1, s1, rest1, hcr1, hseat1, hout1⟩ := doBidStep_ok_shape _ _ _ _ _ _ _ h1
  obtain ⟨cr2, s2, rest2, hcr2, hseat2, hout2⟩ := doBidStep_ok_shape _ _ _ _ _ _ _ h2
  subst hout1
  subst hout2
  refine ⟨rfl, rfl, ?_⟩
  have hv := hview
  rw [decisionView, decisionView, hseat1, hseat2] at hv
  simp only [List.map_cons] at hv
  injection hv with hhead htail
  simp only [decisionView, List.map_cons, List.map_append]
  rw [hhead, htail]
  rfl

/-- Two successful runs of the DoBid loop from the same agent over the
same impressions and index, with any two random streams, end in the same
agent state and draw counter and in responses with equal decision views. -/
theorem doBidLoop_decision (ids : CreativeIndex) (rnd1 rnd2 : Nat → Nat) :
    ∀ (imps : List Imp) (a : Agent) (res1 res2 : BidResponse) (picks : Nat)
      (out1 out2 : Agent × BidResponse × Nat),
      decisionView res1 = decisionView res2 →
      doBidLoop ids rnd1 imps a res1 picks = .ok out1 →
      doBidLoop ids rnd2 imps a res2 picks = .ok out2 →
      out1.1 = out2.1 ∧ out1.2.2 = out2.2.2 ∧
        decisionView out1.2.1 = decisionView out2.2.1 := by
  intro imps
  induction imps with
  | nil =>
    intro a res1 res2 picks out1 out2 hview h1 h2
    simp only [doBidLoop] at h1 h2
    cases h1
    cases h2
    exact ⟨rfl, rfl, hview⟩
  | cons imp rest ih =>
    intro a res1 res2 picks out1 out2 hview h1 h2
    simp only [doBidLoop] at h1 h2
    by_cases hc : goNilJson (idxLookup ids
        { impId := imp.id, extId := a.config.externalId }) = true
    · rw [if_pos hc] at h1 h2
      exact ih a res1 res2 picks out1 out2 hview h1 h2
    · rw [if_neg hc] at h1 h2
      split at h1
      · cases h1
      rename_i a1 r1 p1 hstep1
      split at h2
      · cases h2
      rename_i a2 r2 p2 hstep2
      obtain ⟨haa, hpp, hvv⟩ :=
        doBidStep_decision rnd1 rnd2 imp a res1 res2 picks _ _ _ hview hstep1 hstep2
      simp only [] at haa hpp hvv
      rw [← haa, ← hpp] at h2
      exact ih a1 r1 r2 p1 out1 out2 hvv h1 h2

/-- Two successful DoBid calls for the same agent, request and index, with
any two random streams, return the same flag, the same agent state and
draw counter, and responses with equal decision views. -/
theorem DoBid_decision (a : Agent) (req : BidRequest) (res1 res2 : BidResponse)
    (ids : CreativeIndex) (rnd1 rnd2 : Nat → Nat) (picks : Nat)
    (out1 out2 : BidResponse × Bool × Agent × Nat)
    (hview : decisionView res1 = decisionView res2)
    (h1 : a.DoBid req res1 ids rnd1 picks = .ok out1)
    (h2 : a.DoBid req res2 ids rnd2 picks = .ok out2) :
    decisionView out1.1 = decisionView out2.1 ∧ out1.2.1 = out2.2.1 ∧
      out1.2.2.1 = out2.2.2.1 ∧ out1.2.2.2 = out2.2.2.2 := by
  obtain ⟨a1, r1, p1, bids1, hloop1, hbids1, ho1⟩ := DoBid_ok_decomp _ _ _ _ _ _ _ h1
  obtain ⟨a2, r2, p2, bids2, hloop2, hbids2, ho2⟩ := DoBid_ok_decomp _ _ _ _ _ _ _ h2
  obtain ⟨haa, hpp, hvv⟩ :=
    doBidLoop_decision ids rnd1 rnd2 req.imp a res1 res2 picks _ _ hview hloop1 hloop2
  simp only [] at haa hpp hvv
  subst ho1
  subst ho2
  have hlen : bids1.length = bids2.length := by
    unfold seat0Bids at hbids1 hbids2
    split at hbids1
    · cases hbids1
    rename_i s1 t1 hs1
    cases hbids1
    split at hbids2
    · cases hbids2
    rename_i s2 t2 hs2
    cases hbids2
    have hv := hvv
    rw [decisionView, decisionView, hs1, hs2] at hv
    simp only [List.map_cons] at hv
    injection hv with hh ht
    have h1l : (s1.bid.map eraseCreative).length = (s2.bid.map eraseCreative).length := by
      rw [hh]
    simpa using h1l
  refine ⟨hvv, ?_, haa, hpp⟩
  simp only []
  rw [hlen]

/-- The agent loop of the handler, run twice with two random streams on
responses with equal decision views, produces equal decision views and
the same overall flag. -/
theorem runAgents_decision (req : BidRequest) (ids : CreativeIndex) (rnd1 rnd2 : Nat → Nat) :
    ∀ (agents : List Agent) (res1 res2 : BidResponse) (ok : Bool) (picks : Nat)
      (out1 out2 : BidResponse × Bool),
      decisionView res1 = decisionView res2 →
      runAgents req ids rnd1 agents res1 ok picks = .ok out1 →
      runAgents req ids rnd2 agents res2 ok picks = .ok out2 →
      decisionView out1.1 = decisionView out2.1 ∧ out1.2 = out2.2 := by
  intro agents
  induction agents with
  | nil =>
    intro res1 res2 ok picks out1 out2 hview h1 h2
    simp only [runAgents] at h1 h2
    cases h1
    cases h2
    exact ⟨hview, rfl⟩
  | cons a rest ih =>
    intro res1 res2 ok picks out1 out2 hview h1 h2
    simp only [runAgents] at h1 h2
    split at h1
    · cases h1
    rename_i r1 tmp1 a1 p1 hdo1
    split at h2
    · cases h2
    rename_i r2 tmp2 a2 p2 hdo2
    obtain ⟨hrv, htmp, hag, hpk⟩ :=
      DoBid_decision a req res1 res2 ids rnd1 rnd2 picks _ _ hview hdo1 hdo2
    simp only [] at hrv htmp hag hpk
    rw [← htmp, ← hpk] at h2
    exact ih r1 r2 (tmp1 || ok) p1 out1 out2 hrv h1 h2

end Bidderd
namespace Bidderd

/-- C6: two runs of the auction decision over identical parsed request
content (hence the same rebuilt CreativeIndex) and the same agent list,
with any two random creative-rotation streams, that both produce the bid
outcome, return responses with equal decision views: the same seats and
bids with the same identifiers, impression ids, prices and extension data
(hence the same set of (agent external id, impression id) pairs placing a
bid); only the selected creative of each bid may differ between the runs. -/
theorem auction_decision_deterministic (req : BidRequest) (agents : List Agent)
    (rnd1 rnd2 : Nat → Nat) (res1 res2 : BidResponse)
    (h1 : fastHandleAuctions (some req) agents rnd1 = .bid res1)
    (h2 : fastHandleAuctions (some req) agents rnd2 = .bid res2) :
    decisionView res1 = decisionView res2 := by
  simp only [fastHandleAuctions] at h1 h2
  split at h1
  · cases h1
  rename_i ids hids
  split at h2
  · cases h2
  rename_i ids2 hids2
  rw [hids] at hids2
  injection hids2 with hids2
  subst hids2
  split at h1
  · cases h1
  rename_i r01 ok01 hrun1
  split at h2
  · cases h2
  rename_i r02 ok02 hrun2
  cases ok01 with
  | false => simp at h1
  | true =>
    cases ok02 with
    | false => simp at h2
    | true =>
      simp only [if_true] at h1 h2
      cases h1
      cases h2
      exact (runAgents_decision req ids rnd1 rnd2 agents
        (emptyResponseWithOneSeat req) (emptyResponseWithOneSeat req) true 0
        _ _ rfl hrun1 hrun2).1

/-- C6 witness: two concrete runs that select different creatives (ids 5
and 9) nevertheless have equal decision views. -/
theorem auction_decision_deterministic_witness :
    decisionView rotRes1 = decisionView rotRes2 :=
  auction_decision_deterministic rotReq [rotAgent] (fun _ => 0) (fun _ => 1)
    rotRes1 rotRes2 rfl rfl

end Bidderd
